import Mathlib

/-!
# Formal model of the `screener-service` repository

A shallow embedding of the two locally-authored components of the service:

* the filter translator (`src/screener.py`, `ScreenerService.scan` and
  `ScreenerService._build_condition`), which turns a `ScanRequest` into the
  query object handed to the external `tradingview_screener` executor, and
* the ticker autocomplete search (`src/routes.py`, `_load_tickers` and
  `search_tickers`), a two-pass match over a cached ticker list.

External collaborators (the `tradingview_screener` library, the HTTP
framework, the filesystem/JSON layer) are modelled abstractly: the executor
is a function parameter, the condition objects the library builds are a
tagged datatype recording which operation was requested, and the ticker file
is an already-parsed value.  Python exceptions become `Except` errors.
Numeric values are modelled as integers: the translation logic never
computes with numeric content, it only dispatches on value shape.
-/

namespace Screener

/-- A scalar JSON value of a filter (`int | float | str` in models.py).
Numbers are modelled as integers; the translator never inspects them. -/
inductive Scalar
  | num (n : Int)
  | str (s : String)
  deriving DecidableEq, Repr

/-- `Filter.value` from models.py: a scalar or a list of scalars.  Python's
`isinstance(value, list)` test is the `vlist` constructor. -/
inductive FilterValue
  | scalar (s : Scalar)
  | vlist (l : List Scalar)
  deriving DecidableEq, Repr

/-- A single filter condition (`Filter` in models.py).  `op` is a string at
runtime in Python; the schema-layer restriction to the ten recognized
operators is modelled separately in `schemaValid`. -/
structure Filter where
  field : String
  op : String
  value : FilterValue
  deriving DecidableEq, Repr

/-- The condition objects produced by the `tradingview_screener.Column`
operations in `_build_condition`.  The library's dict payload is abstracted
to a constructor recording which operation was built and with what data. -/
inductive Condition
  | gt (field : String) (value : FilterValue)
  | gte (field : String) (value : FilterValue)
  | lt (field : String) (value : FilterValue)
  | lte (field : String) (value : FilterValue)
  | eq (field : String) (value : FilterValue)
  | neq (field : String) (value : FilterValue)
  | between (field : String) (lo hi : Scalar)
  | notBetween (field : String) (lo hi : Scalar)
  | isin (field : String) (values : List Scalar)
  | notIn (field : String) (values : List Scalar)
  deriving DecidableEq, Repr

/-- The `ValueError`s raised by `_build_condition`, rendered structurally:
each raising site names the operator in its message. -/
inductive BuildError
  | invalidArgument (op : String) (requirement : String)
  | unknownOperator (op : String)
  deriving DecidableEq, Repr

/-- The message text of a `BuildError` (`str(e)` in routes.py; the source
quotes the operator name, the quotes are elided here). -/
def BuildError.message : BuildError → String
  | .invalidArgument op req => "Operator " ++ op ++ " requires " ++ req
  | .unknownOperator op => "Unknown filter operator: " ++ op

/-- `ScreenerService._build_condition` (screener.py lines 89-123), translated
clause for clause.  A raised `ValueError` becomes `Except.error`.  For
`between`/`not_between` the source checks `isinstance(value, list)` and
`len(value) == 2` and then uses `value[0]`, `value[1]`; the two-element
list pattern captures exactly that. -/
def build_condition (f : Filter) : Except BuildError Condition :=
  if f.op = "gt" then .ok (.gt f.field f.value)
  else if f.op = "gte" then .ok (.gte f.field f.value)
  else if f.op = "lt" then .ok (.lt f.field f.value)
  else if f.op = "lte" then .ok (.lte f.field f.value)
  else if f.op = "eq" then .ok (.eq f.field f.value)
  else if f.op = "neq" then .ok (.neq f.field f.value)
  else if f.op = "between" then
    match f.value with
    | .vlist [a, b] => .ok (.between f.field a b)
    | _ => .error (.invalidArgument "between" "a list of exactly 2 values")
  else if f.op = "not_between" then
    match f.value with
    | .vlist [a, b] => .ok (.notBetween f.field a b)
    | _ => .error (.invalidArgument "not_between" "a list of exactly 2 values")
  else if f.op = "in" then
    match f.value with
    | .vlist l => .ok (.isin f.field l)
    | _ => .error (.invalidArgument "in" "a list of values")
  else if f.op = "not_in" then
    match f.value with
    | .vlist l => .ok (.notIn f.field l)
    | _ => .error (.invalidArgument "not_in" "a list of values")
  else .error (.unknownOperator f.op)

/-- The list comprehension
`[self._build_condition(f) for f in request.filters]` (screener.py line 45):
conditions in filter order, the first raised `ValueError` aborting the whole
construction. -/
def build_conditions : List Filter → Except BuildError (List Condition)
  | [] => .ok []
  | f :: fs =>
      match build_condition f with
      | .error e => .error e
      | .ok c =>
          match build_conditions fs with
          | .error e => .error e
          | .ok cs => .ok (c :: cs)

/-- The combined predicate handed to the executor: `query.where(c)` for a
single condition, `query.where2(And(*conditions))` for several. -/
inductive Predicate
  | cond (c : Condition)
  | andAll (cs : List Condition)
  deriving DecidableEq, Repr

/-- The state of a `tradingview_screener.Query` as configured by
`ScreenerService.scan`: which settings were applied before execution. -/
structure Query where
  markets : Option (List String) := none
  selectColumns : List String := []
  predicate : Option Predicate := none
  sortBy : Option (String × Bool) := none
  limitN : Option Nat := none
  offsetN : Option Nat := none
  deriving DecidableEq, Repr

/-- Sort configuration (`OrderBy` in models.py).  `direction` is one of
`"asc"`/`"desc"` at the schema layer. -/
structure OrderBy where
  field : String
  direction : String := "desc"
  deriving DecidableEq, Repr

/-- Request body of `/scan` (`ScanRequest` in models.py), with the model's
default values.  `limit`/`offset` are integers with non-negative schema
bounds, modelled as `Nat`. -/
structure ScanRequest where
  markets : List String := ["america"]
  columns : List String
  filters : Option (List Filter) := none
  order_by : Option OrderBy := none
  limit : Nat := 50
  offset : Nat := 0
  deriving DecidableEq, Repr

/-- Ordering, limit and offset application (screener.py lines 51-59):
`order_by` when present (ascending iff direction is `"asc"`), always
`limit`, and `offset` only when strictly positive. -/
def applyTail (request : ScanRequest) (query : Query) : Query :=
  let query :=
    match request.order_by with
    | some ob => { query with sortBy := some (ob.field, ob.direction == "asc") }
    | none => query
  let query := { query with limitN := some request.limit }
  if request.offset > 0 then { query with offsetN := some request.offset } else query

/-- The query-construction part of `ScreenerService.scan` (screener.py lines
30-59): the `Query` value handed to the external executor, or the
`ValueError` raised while building filter conditions.  Python's
`if request.markets:` and `if request.filters:` truthiness tests are the
emptiness/`none` tests below. -/
def buildQuery (request : ScanRequest) : Except BuildError Query :=
  let query : Query := {}
  let query :=
    if request.markets.isEmpty then query
    else { query with markets := some request.markets }
  let columnsToSelect :=
    if "name" ∈ request.columns then request.columns
    else "name" :: request.columns
  let query := { query with selectColumns := columnsToSelect }
  match request.filters with
  | none => .ok (applyTail request query)
  | some fs =>
      if fs.isEmpty then .ok (applyTail request query)
      else
        match build_conditions fs with
        | .error e => .error e
        | .ok conditions =>
            let query :=
              match conditions with
              | [c] => { query with predicate := some (.cond c) }
              | cs => { query with predicate := some (.andAll cs) }
            .ok (applyTail request query)

example : build_condition ⟨"close", "gt", .scalar (.num 5)⟩ =
    .ok (.gt "close" (.scalar (.num 5))) := by rfl

example : build_condition ⟨"close", "between", .scalar (.num 5)⟩ =
    .error (.invalidArgument "between" "a list of exactly 2 values") := by rfl

example : build_condition ⟨"close", "in", .vlist []⟩ =
    .ok (.isin "close" []) := by rfl

example : build_condition ⟨"close", "foo", .scalar (.num 5)⟩ =
    .error (.unknownOperator "foo") := by rfl

example : buildQuery { markets := [], columns := ["close", "close"] } =
    .ok { selectColumns := ["name", "close", "close"], limitN := some 50 } := by rfl

/-! ## The scan route (routes.py lines 213-229) -/

/-- A result row, a DataFrame record rendered as key/value pairs.  The
service never inspects rows, it passes them through. -/
abbrev Row := List (String × String)

/-- An HTTP outcome of a route handler: a successful payload or an
`HTTPException` with a status code and detail string. -/
inductive HttpReply (α : Type)
  | ok (value : α)
  | httpError (status : Nat) (detail : String)
  deriving DecidableEq, Repr

/-- The ten operator literals of `FilterOperator` in models.py. -/
def recognizedOps : List String :=
  ["gt", "gte", "lt", "lte", "eq", "neq", "between", "not_between", "in", "not_in"]

/-- Modelled from the spec: the framework request-body validation missing
from src (pydantic/FastAPI enforce the `ScanRequest` schema declared in
models.py lines 33-68 before the handler runs: non-empty `columns`,
`limit` in `[1,1000]`, `op` one of the ten literals, `direction` one of
`asc`/`desc`).  A violation is rejected with status 422. -/
def schemaValid (r : ScanRequest) : Bool :=
  !r.columns.isEmpty
    && decide (1 ≤ r.limit) && decide (r.limit ≤ 1000)
    && (match r.filters with
        | none => true
        | some fs => fs.all fun f => recognizedOps.contains f.op)
    && (match r.order_by with
        | none => true
        | some ob => ob.direction == "asc" || ob.direction == "desc")

/-- The failure modes of `ScreenerService.scan` as routes.py distinguishes
them: a `ValueError` (raised by `_build_condition`) or any other exception
during query execution. -/
inductive ScanFailure
  | valueError (e : BuildError)
  | execFailure (msg : String)
  deriving DecidableEq, Repr

/-- `ScreenerService.scan` end to end: build the query, then run the
external executor `ex` (`query.get_scanner_data()`), an opaque collaborator
returning the total match count and the rows, or failing with an exception
message.  Wall-clock duration and the response timestamp are real-time
effects outside the model; the response payload proper is `(count, rows)`. -/
def scan_service (ex : Query → Except String (Nat × List Row))
    (r : ScanRequest) : Except ScanFailure (Nat × List Row) :=
  match buildQuery r with
  | .error e => .error (.valueError e)
  | .ok q =>
      match ex q with
      | .error msg => .error (.execFailure msg)
      | .ok res => .ok res

/-- The `/scan` route handler (routes.py lines 213-229) behind the
schema-validation layer: 422 on schema violation, then
`except ValueError → 400 str(e)` and `except Exception → 500` wrapping the
message. -/
def scan_route (ex : Query → Except String (Nat × List Row))
    (r : ScanRequest) : HttpReply (Nat × List Row) :=
  if schemaValid r then
    match scan_service ex r with
    | .ok res => .ok res
    | .error (.valueError e) => .httpError 400 e.message
    | .error (.execFailure msg) => .httpError 500 ("Scan failed: " ++ msg)
  else .httpError 422 "request body failed schema validation"

/-! ## Ticker records, loading and search (routes.py lines 20-33, 164-210) -/

/-- A ticker record (`TickerResult` in routes.py, `TickerRecord` in the
spec). -/
structure Ticker where
  name : String
  description : String
  exchange : String
  type : String
  deriving DecidableEq, Repr

/-- Python's `str.upper`, character by character over the string's
character list. -/
def upperL (s : List Char) : List Char := s.map Char.toUpper

/-- Python's substring test `needle in hay` over explicit character
lists. -/
def containsSub (needle : List Char) : List Char → Bool
  | [] => needle.isEmpty
  | c :: rest => needle.isPrefixOf (c :: rest) || containsSub needle rest

/-- The first-pass match `t["name"].upper().startswith(query)`. -/
def prefixMatch (query : List Char) (t : Ticker) : Bool :=
  query.isPrefixOf (upperL t.name.data)

/-- The second-pass match
`query in t["name"].upper() or query in t["description"].upper()`. -/
def substrMatch (query : List Char) (t : Ticker) : Bool :=
  containsSub query (upperL t.name.data)
    || containsSub query (upperL t.description.data)

/-- First pass of `search_tickers` (routes.py lines 181-192): walk the
ticker list; on a prefix match of an unseen name, append the record and the
name, breaking once `limit` results are collected.  `results`/`seen` are the
loop accumulators; the Python `seen` set is the list of appended names. -/
def passOne (query : List Char) (limit : Nat) :
    List Ticker → List Ticker → List String → List Ticker × List String
  | [], results, seen => (results, seen)
  | t :: ts, results, seen =>
      if prefixMatch query t then
        if t.name ∈ seen then passOne query limit ts results seen
        else
          let results' := results ++ [t]
          let seen' := seen ++ [t.name]
          if limit ≤ results'.length then (results', seen')
          else passOne query limit ts results' seen'
      else passOne query limit ts results seen

/-- Second pass of `search_tickers` (routes.py lines 195-208): substring
match on name or description, skipping already-seen names, breaking at
`limit`. -/
def passTwo (query : List Char) (limit : Nat) :
    List Ticker → List Ticker → List String → List Ticker
  | [], results, _ => results
  | t :: ts, results, seen =>
      if t.name ∈ seen then passTwo query limit ts results seen
      else if substrMatch query t then
        let results' := results ++ [t]
        if limit ≤ results'.length then results'
        else passTwo query limit ts results' (seen ++ [t.name])
      else passTwo query limit ts results seen

/-- `search_tickers` (routes.py lines 164-210) over an already-loaded ticker
list: upper-case the query, run the first pass, run the second pass only if
fewer than `limit` results were found, and return the results with their
count. -/
def search_tickers (tickers : List Ticker) (q : String) (limit : Nat) :
    List Ticker × Nat :=
  let query := upperL q.data
  let (results, seen) := passOne query limit tickers [] []
  let results :=
    if results.length < limit then passTwo query limit tickers results seen
    else results
  (results, results.length)

/-- The parsed content of the tickers JSON file as the loader consumes it:
`data.get("tickers", [])` (the `updatedAt`/`count` fields are unused). -/
structure TickersFile where
  tickers : List Ticker
  deriving DecidableEq, Repr

/-- The module-global `_tickers_cache` of routes.py, passed explicitly. -/
structure TickerCache where
  cache : Option (List Ticker)
  deriving DecidableEq, Repr

/-- `_load_tickers` (routes.py lines 24-33) with the global cache made
explicit.  `source = none` models a missing `TICKERS_FILE`; the returned
`Bool` records whether the file was read on this call.  Note the
missing-file branch returns `[]` without populating the cache. -/
def load_tickers (source : Option TickersFile) (st : TickerCache) :
    List Ticker × TickerCache × Bool :=
  match st.cache with
  | some ts => (ts, st, false)
  | none =>
      match source with
      | none => ([], st, false)
      | some file => (file.tickers, ⟨some file.tickers⟩, true)

/-- A process lifetime of `n` successive `_load_tickers` calls against a
fixed backing source: the list returned by each call, the final cache state,
and the total number of file reads performed. -/
def runLoads (source : Option TickersFile) :
    Nat → TickerCache → List (List Ticker) × TickerCache × Nat
  | 0, st => ([], st, 0)
  | n + 1, st =>
      let (r, st', b) := load_tickers source st
      let (rs, st'', k) := runLoads source n st'
      (r :: rs, st'', (if b then 1 else 0) + k)

/-! ## Spec-side description of the ticker search (for claim C2) -/

/-- Written from the spec's words: filter the ticker list with `p`,
deduplicating by name, given the names already matched. -/
def dedupMatches (p : Ticker → Bool) : List Ticker → List String → List Ticker
  | [], _ => []
  | t :: ts, seen =>
      if p t ∧ t.name ∉ seen then t :: dedupMatches p ts (seen ++ [t.name])
      else dedupMatches p ts seen

/-- Written from the spec's words (section 4.2): prefix matches on the name
first, then substring matches on name or description excluding names already
matched, everything deduplicated by name and cut to `limit`. -/
def specSearch (tickers : List Ticker) (q : String) (limit : Nat) :
    List Ticker :=
  let query := upperL q.data
  let p1 := dedupMatches (prefixMatch query) tickers []
  let p2 := dedupMatches (substrMatch query) tickers (p1.map Ticker.name)
  (p1 ++ p2).take limit

def appleT : Ticker := ⟨"AAPL", "Apple Inc.", "NASDAQ", "stock"⟩

def appliedT : Ticker := ⟨"AMAT", "Applied Materials", "NASDAQ", "stock"⟩

def microsoftT : Ticker := ⟨"MSFT", "Microsoft Corp.", "NASDAQ", "stock"⟩

def demoTickers : List Ticker := [microsoftT, appleT, appliedT, appleT]

example : search_tickers demoTickers "aap" 10 = ([appleT], 1) := by decide

example : search_tickers demoTickers "ap" 10 =
    ([appleT, appliedT], 2) := by decide

example : search_tickers demoTickers "ap" 1 = ([appleT], 1) := by decide

example : specSearch demoTickers "ap" 10 = [appleT, appliedT] := by decide

example : runLoads (some ⟨demoTickers⟩) 3 ⟨none⟩ =
    ([demoTickers, demoTickers, demoTickers], ⟨some demoTickers⟩, 1) := by decide

/-! ## Helper lemmas about the query pipeline -/

theorem applyTail_markets (r : ScanRequest) (q : Query) :
    (applyTail r q).markets = q.markets := by
  rcases hob : r.order_by with _ | ob <;> by_cases ho : r.offset > 0 <;>
    simp [applyTail, hob, ho]

theorem applyTail_selectColumns (r : ScanRequest) (q : Query) :
    (applyTail r q).selectColumns = q.selectColumns := by
  rcases hob : r.order_by with _ | ob <;> by_cases ho : r.offset > 0 <;>
    simp [applyTail, hob, ho]

theorem applyTail_predicate (r : ScanRequest) (q : Query) :
    (applyTail r q).predicate = q.predicate := by
  rcases hob : r.order_by with _ | ob <;> by_cases ho : r.offset > 0 <;>
    simp [applyTail, hob, ho]

theorem build_conditions_length :
    ∀ {fs : List Filter} {cs : List Condition},
      build_conditions fs = .ok cs → cs.length = fs.length := by
  intro fs
  induction fs with
  | nil => intro cs h; simp only [build_conditions] at h; cases h; rfl
  | cons f fs ih =>
      intro cs h
      simp only [build_conditions] at h
      cases hbc : build_condition f with
      | error e => rw [hbc] at h; cases h
      | ok c =>
          rw [hbc] at h
          cases hcs : build_conditions fs with
          | error e => rw [hcs] at h; cases h
          | ok cs' =>
              rw [hcs] at h
              cases h
              simp [ih hcs]

/-- Whether every filter of the request translates without a `ValueError`. -/
def filtersOk (r : ScanRequest) : Bool :=
  match r.filters with
  | none => true
  | some fs => (build_conditions fs).isOk

/-! ## Claim theorems -/

/-- C3: a `between`/`not_between` filter whose value is not a two-element
list, and an `in`/`not_in` filter whose value is not a list, fail with an
invalid-argument error naming the operator; values satisfying the arity
requirement build a condition without error. -/
theorem build_condition_arity (f : Filter) :
    ((f.op = "between" ∨ f.op = "not_between") →
      ((∀ a b, f.value ≠ .vlist [a, b]) →
          build_condition f = .error (.invalidArgument f.op "a list of exactly 2 values"))
        ∧ ∀ a b, f.value = .vlist [a, b] → ∃ c, build_condition f = .ok c)
    ∧ ((f.op = "in" ∨ f.op = "not_in") →
      ((∀ l, f.value ≠ .vlist l) →
          build_condition f = .error (.invalidArgument f.op "a list of values"))
        ∧ ∀ l, f.value = .vlist l → ∃ c, build_condition f = .ok c) := by
  obtain ⟨fld, op, v⟩ := f
  constructor
  · rintro (rfl | rfl) <;> constructor
    · intro h
      rcases v with s | (_ | ⟨a, _ | ⟨b, _ | ⟨c, l⟩⟩⟩)
      · rfl
      · rfl
      · rfl
      · exact absurd rfl (h a b)
      · rfl
    · rintro a b rfl; exact ⟨_, rfl⟩
    · intro h
      rcases v with s | (_ | ⟨a, _ | ⟨b, _ | ⟨c, l⟩⟩⟩)
      · rfl
      · rfl
      · rfl
      · exact absurd rfl (h a b)
      · rfl
    · rintro a b rfl; exact ⟨_, rfl⟩
  · rintro (rfl | rfl) <;> constructor
    · intro h
      rcases v with s | l
      · rfl
      · exact absurd rfl (h l)
    · rintro l rfl; exact ⟨_, rfl⟩
    · intro h
      rcases v with s | l
      · rfl
      · exact absurd rfl (h l)
    · rintro l rfl; exact ⟨_, rfl⟩

theorem build_condition_arity_witness :
    build_condition ⟨"close", "between", .scalar (.num 50)⟩ =
      .error (.invalidArgument "between" "a list of exactly 2 values") :=
  ((build_condition_arity ⟨"close", "between", .scalar (.num 50)⟩).1
      (Or.inl rfl)).1 fun _ _ h => FilterValue.noConfusion h

/-- C9: any operator string outside the ten recognized operators makes
`_build_condition` fail with an unrecognized-operator error naming the
operator. -/
theorem build_condition_unknown_op (f : Filter) (h : f.op ∉ recognizedOps) :
    build_condition f = .error (.unknownOperator f.op) := by
  obtain ⟨fld, op, v⟩ := f
  simp only [recognizedOps, List.mem_cons, List.not_mem_nil, or_false,
    not_or] at h
  obtain ⟨h1, h2, h3, h4, h5, h6, h7, h8, h9, h10⟩ := h
  simp [build_condition, h1, h2, h3, h4, h5, h6, h7, h8, h9, h10]

theorem build_condition_unknown_op_witness :
    build_condition ⟨"close", "foo", .scalar (.num 1)⟩ =
      .error (.unknownOperator "foo") :=
  build_condition_unknown_op ⟨"close", "foo", .scalar (.num 1)⟩ (by decide)

/-- C4 counterexample: three filters violating the spec's Filter invariant
(`in` with an empty list, `gt` with a list instead of a scalar, `between`
with a non-numeric two-element list) all build conditions without any
error. -/
theorem build_condition_invariant_cex :
    build_condition ⟨"close", "in", .vlist []⟩ = .ok (.isin "close" [])
      ∧ build_condition ⟨"close", "gt", .vlist [.num 1]⟩ =
          .ok (.gt "close" (.vlist [.num 1]))
      ∧ build_condition ⟨"close", "between", .vlist [.str "a", .str "b"]⟩ =
          .ok (.between "close" (.str "a") (.str "b")) :=
  ⟨rfl, rfl, rfl⟩

/-- The value-shape requirement `_build_condition` actually enforces for a
recognized operator: a two-element list for `between`/`not_between`, any
list for `in`/`not_in`, anything at all for the comparison operators. -/
def enforcedShape (f : Filter) : Prop :=
  if f.op = "between" ∨ f.op = "not_between" then ∃ a b, f.value = .vlist [a, b]
  else if f.op = "in" ∨ f.op = "not_in" then ∃ l, f.value = .vlist l
  else True

/-- C4 amended: for a recognized operator, `_build_condition` succeeds
exactly when the value passes the check the code performs —
`between`/`not_between` need a list of exactly two elements (numeric content
is not checked), `in`/`not_in` need a list (emptiness is not checked), and
the six comparison operators accept any value (no scalar check) — and every
failed check raises an invalid-argument error naming the operator. -/
theorem build_condition_enforced (f : Filter) (h : f.op ∈ recognizedOps) :
    ((∃ c, build_condition f = .ok c) ↔ enforcedShape f)
    ∧ (¬ enforcedShape f →
        ∃ req, build_condition f = .error (.invalidArgument f.op req)) := by
  obtain ⟨fld, op, v⟩ := f
  simp only [recognizedOps, List.mem_cons, List.not_mem_nil, or_false] at h
  rcases h with rfl | rfl | rfl | rfl | rfl | rfl | rfl | rfl | rfl | rfl <;>
    rcases v with s | (_ | ⟨a, _ | ⟨b, _ | ⟨c, l⟩⟩⟩) <;>
    simp [build_condition, enforcedShape]

theorem build_condition_enforced_witness :
    (∃ c, build_condition ⟨"close", "in", .vlist []⟩ = .ok c) ↔
      enforcedShape ⟨"close", "in", .vlist []⟩ :=
  (build_condition_enforced ⟨"close", "in", .vlist []⟩ (by decide)).1

theorem buildQuery_ok_shape (r : ScanRequest) (q : Query)
    (h : buildQuery r = .ok q) :
    q.markets = (if r.markets.isEmpty then none else some r.markets)
    ∧ q.selectColumns =
        (if "name" ∈ r.columns then r.columns else "name" :: r.columns) := by
  rcases hf : r.filters with _ | fs
  · simp only [buildQuery, hf, Except.ok.injEq] at h
    rw [← h, applyTail_markets, applyTail_selectColumns]
    by_cases hm : r.markets.isEmpty <;> simp [hm]
  · by_cases hfe : fs.isEmpty
    · simp only [buildQuery, hf, hfe, if_true, Except.ok.injEq] at h
      rw [← h, applyTail_markets, applyTail_selectColumns]
      by_cases hm : r.markets.isEmpty <;> simp [hm]
    · cases hcs : build_conditions fs with
      | error e => simp [buildQuery, hf, hfe, hcs] at h
      | ok cs =>
          simp only [buildQuery, hf, hfe, hcs, if_false, Bool.false_eq_true,
            Except.ok.injEq] at h
          rw [← h, applyTail_markets, applyTail_selectColumns]
          rcases cs with _ | ⟨c1, _ | ⟨c2, cs2⟩⟩ <;>
            by_cases hm : r.markets.isEmpty <;> simp [hm]

theorem buildQuery_error (r : ScanRequest) (e : BuildError)
    (h : buildQuery r = .error e) :
    ∃ fs, r.filters = some fs ∧ build_conditions fs = .error e := by
  rcases hf : r.filters with _ | fs
  · simp [buildQuery, hf] at h
  · by_cases hfe : fs.isEmpty
    · simp [buildQuery, hf, hfe] at h
    · cases hcs : build_conditions fs with
      | error e' =>
          simp only [buildQuery, hf, hfe, hcs, if_false, Bool.false_eq_true,
            Except.error.injEq] at h
          exact ⟨fs, rfl, h ▸ hcs⟩
      | ok cs =>
          rcases cs with _ | ⟨c1, _ | ⟨c2, cs2⟩⟩ <;>
            simp [buildQuery, hf, hfe, hcs] at h

/-- C5: the shape of the predicate handed to the executor — no filters means
no predicate, a single filter is used directly via `where`, several filters
are combined with `And` via `where2`. -/
theorem buildQuery_filter_combination (r : ScanRequest) :
    ((r.filters = none ∨ r.filters = some []) →
        (buildQuery r).map Query.predicate = .ok none)
    ∧ (∀ f c, r.filters = some [f] → build_condition f = .ok c →
        (buildQuery r).map Query.predicate = .ok (some (.cond c)))
    ∧ (∀ fs cs, r.filters = some fs → 2 ≤ fs.length →
        build_conditions fs = .ok cs →
        (buildQuery r).map Query.predicate = .ok (some (.andAll cs))) := by
  refine ⟨?_, ?_, ?_⟩
  · rintro (hf | hf) <;>
      simp [buildQuery, hf, Except.map, applyTail_predicate] <;>
      split <;> rfl
  · intro f c hf hc
    simp [buildQuery, hf, build_conditions, hc, Except.map, applyTail_predicate]
  · intro fs cs hf hlen hcs
    have hne : fs.isEmpty = false := by
      rcases fs with _ | ⟨f1, fs1⟩
      · simp at hlen
      · rfl
    have hcl := build_conditions_length hcs
    have hcs2 : 2 ≤ cs.length := by omega
    rcases cs with _ | ⟨c1, _ | ⟨c2, cs2⟩⟩
    · simp at hcs2
    · simp at hcs2
    · simp [buildQuery, hf, hne, hcs, Except.map, applyTail_predicate]

/-- A demonstration request carrying two filters. -/
def twoFilterReq : ScanRequest :=
  { columns := ["name", "close"],
    filters := some [⟨"close", "gt", .scalar (.num 10)⟩,
      ⟨"close", "lt", .scalar (.num 500)⟩] }

theorem buildQuery_filter_combination_witness :
    (buildQuery twoFilterReq).map Query.predicate =
      .ok (some (.andAll [.gt "close" (.scalar (.num 10)),
        .lt "close" (.scalar (.num 500))])) :=
  (buildQuery_filter_combination twoFilterReq).2.2
    [⟨"close", "gt", .scalar (.num 10)⟩, ⟨"close", "lt", .scalar (.num 500)⟩]
    [.gt "close" (.scalar (.num 10)), .lt "close" (.scalar (.num 500))]
    rfl (by decide) rfl

/-- C10: a request with an empty markets list sets no market on the query
(the executor's default applies), and the scan proceeds without error
whenever its filters translate. -/
theorem buildQuery_no_markets (r : ScanRequest) (h : r.markets = []) :
    (∀ q, buildQuery r = .ok q → q.markets = none)
    ∧ (filtersOk r → ∃ q, buildQuery r = .ok q ∧ q.markets = none) := by
  have hme : r.markets.isEmpty = true := by rw [h]; rfl
  have hmk : ∀ q, buildQuery r = .ok q → q.markets = none := by
    intro q hq
    rw [(buildQuery_ok_shape r q hq).1, hme]
    rfl
  refine ⟨hmk, ?_⟩
  intro hok
  cases hbq : buildQuery r with
  | ok q => exact ⟨q, rfl, hmk q hbq⟩
  | error e =>
      exfalso
      obtain ⟨fs, hf, hcs⟩ := buildQuery_error r e hbq
      simp [filtersOk, hf, hcs, Except.isOk, Except.toBool] at hok

/-- A demonstration request with an empty markets list. -/
def closeReq : ScanRequest := { markets := [], columns := ["close"] }

/-- The query `buildQuery` produces for `closeReq`. -/
def closeQuery : Query :=
  { markets := none, selectColumns := ["name", "close"], limitN := some 50 }

theorem buildQuery_no_markets_witness :
    ∃ q, buildQuery closeReq = .ok q ∧ q.markets = none :=
  (buildQuery_no_markets closeReq rfl).2 (by decide)

/-- Written from the claim's words (C1): the requested columns
deduplicated, `name` first when absent, the list passed unchanged when
`name` is already present. -/
def claimedColumns (cols : List String) : List String :=
  if "name" ∈ cols then cols else "name" :: cols.dedup

/-- C1 counterexample: for requested columns `["close", "close"]` the list
handed to the executor keeps the duplicate, so it differs from the claim's
deduplicated list. -/
theorem buildQuery_columns_cex :
    buildQuery { markets := [], columns := ["close", "close"] } =
      .ok { selectColumns := ["name", "close", "close"], limitN := some 50 }
    ∧ claimedColumns ["close", "close"] = ["name", "close"]
    ∧ (["name", "close", "close"] : List String) ≠ ["name", "close"] :=
  ⟨rfl, by decide, by decide⟩

/-- C1 amended: the columns handed to the executor are the requested columns
unchanged — duplicates included — except that `name` is prepended when it is
absent; `name` is therefore always among the selected columns. -/
theorem buildQuery_columns (r : ScanRequest) (q : Query)
    (h : buildQuery r = .ok q) :
    q.selectColumns =
      (if "name" ∈ r.columns then r.columns else "name" :: r.columns)
    ∧ "name" ∈ q.selectColumns := by
  have hs := (buildQuery_ok_shape r q h).2
  refine ⟨hs, ?_⟩
  rw [hs]
  by_cases hn : "name" ∈ r.columns <;> simp [hn]

theorem buildQuery_columns_witness :
    (closeQuery.selectColumns =
        if "name" ∈ closeReq.columns then closeReq.columns
        else "name" :: closeReq.columns)
      ∧ "name" ∈ closeQuery.selectColumns :=
  buildQuery_columns closeReq closeQuery rfl

/-- C8: status mapping of the `/scan` route — schema violations (an empty
columns list in particular) give 422 before translation runs, a
`ValueError` from filter translation gives 400 with its message, an executor
failure gives 500 wrapping the message, and otherwise the executor's payload
is returned unchanged; exactly one of these outcomes occurs per request. -/
theorem scan_route_statuses (ex : Query → Except String (Nat × List Row))
    (r : ScanRequest) :
    (r.columns = [] →
        scan_route ex r = .httpError 422 "request body failed schema validation")
    ∧ (¬ schemaValid r →
        scan_route ex r = .httpError 422 "request body failed schema validation")
    ∧ (schemaValid r → ∀ e, buildQuery r = .error e →
        scan_route ex r = .httpError 400 e.message)
    ∧ (schemaValid r → ∀ q msg, buildQuery r = .ok q → ex q = .error msg →
        scan_route ex r = .httpError 500 ("Scan failed: " ++ msg))
    ∧ (schemaValid r → ∀ q res, buildQuery r = .ok q → ex q = .ok res →
        scan_route ex r = .ok res) := by
  refine ⟨?_, ?_, ?_, ?_, ?_⟩
  · intro hc
    have hv : ¬ schemaValid r = true := by simp [schemaValid, hc]
    simp [scan_route, hv]
  · intro hv
    simp [scan_route, hv]
  · intro hv e he
    simp [scan_route, hv, scan_service, he]
  · intro hv q msg hq hm
    simp [scan_route, hv, scan_service, hq, hm]
  · intro hv q res hq hres
    simp [scan_route, hv, scan_service, hq, hres]

theorem scan_route_statuses_witness :
    scan_route (fun _ => .ok (3, [])) { columns := ["close"] } = .ok (3, []) :=
  (scan_route_statuses (fun _ => .ok (3, [])) { columns := ["close"] }).2.2.2.2
    (by decide) _ (3, []) rfl rfl

theorem runLoads_cached (source : Option TickersFile) (c : List Ticker) :
    ∀ n : Nat, runLoads source n ⟨some c⟩ = (List.replicate n c, ⟨some c⟩, 0) := by
  intro n
  induction n with
  | zero => rfl
  | succ m ih => simp [runLoads, load_tickers, ih, List.replicate_succ]

/-- C6: with a fixed existing backing file, a process of `n ≥ 1` search
requests reads the file exactly once, every call returns the same loaded
list, and the final cache holds it; moreover any call that finds the cache
populated returns the cached list unchanged without touching the source. -/
theorem tickers_loaded_once (f : TickersFile) (n : Nat) (h : 1 ≤ n) :
    runLoads (some f) n ⟨none⟩ =
        (List.replicate n f.tickers, ⟨some f.tickers⟩, 1)
    ∧ ∀ (source : Option TickersFile) (c : List Ticker),
        load_tickers source ⟨some c⟩ = (c, ⟨some c⟩, false) := by
  constructor
  · rcases n with _ | m
    · exact absurd h (by decide)
    · simp [runLoads, load_tickers, runLoads_cached, List.replicate_succ]
  · intro source c
    rfl

theorem tickers_loaded_once_witness :
    runLoads (some ⟨demoTickers⟩) 2 ⟨none⟩ =
        (List.replicate 2 demoTickers, ⟨some demoTickers⟩, 1)
      ∧ ∀ (source : Option TickersFile) (c : List Ticker),
          load_tickers source ⟨some c⟩ = (c, ⟨some c⟩, false) :=
  tickers_loaded_once ⟨demoTickers⟩ 2 (by decide)

/-- C7: with a missing backing file, and with a backing file holding no
tickers, every search returns no results and count zero, with no error
raised. -/
theorem search_empty_source (q : String) (limit : Nat) :
    search_tickers (load_tickers none ⟨none⟩).1 q limit = ([], 0)
    ∧ search_tickers (load_tickers (some ⟨[]⟩) ⟨none⟩).1 q limit = ([], 0) := by
  constructor <;>
  · show search_tickers [] q limit = ([], 0)
    simp [search_tickers, passOne, passTwo]

theorem passOne_eq (query : List Char) (limit : Nat) :
    ∀ (ts acc : List Ticker) (seen : List String), acc.length < limit →
      passOne query limit ts acc seen =
        (acc ++ (dedupMatches (prefixMatch query) ts seen).take
            (limit - acc.length),
          seen ++ ((dedupMatches (prefixMatch query) ts seen).take
            (limit - acc.length)).map Ticker.name) := by
  intro ts
  induction ts with
  | nil => intro acc seen hlt; simp [passOne, dedupMatches]
  | cons t ts ih =>
      intro acc seen hlt
      by_cases hp : prefixMatch query t = true
      · by_cases hs : t.name ∈ seen
        · simp only [passOne, dedupMatches, hp, hs, if_true, if_false,
            not_true, and_false]
          exact ih acc seen hlt
        · simp only [passOne, dedupMatches, hp, hs, if_true, if_false,
            not_false_iff, and_true, and_self, List.length_append,
            List.length_singleton]
          by_cases hb : limit ≤ acc.length + 1
          · have h1 : limit - acc.length = 1 := by omega
            simp [hb, h1]
          · have hlt' : (acc ++ [t]).length < limit := by
              simp only [List.length_append, List.length_singleton]
              omega
            have hk : limit - acc.length = (limit - (acc.length + 1)) + 1 := by
              omega
            simp only [hb, if_false]
            rw [ih (acc ++ [t]) (seen ++ [t.name]) hlt']
            simp [hk, List.take_succ_cons, List.append_assoc,
              List.length_append]
      · have hp' : prefixMatch query t = false := by
          revert hp; cases prefixMatch query t <;> simp
        simp only [passOne, dedupMatches, hp', Bool.false_eq_true, if_false,
          false_and]
        exact ih acc seen hlt

theorem passTwo_eq (query : List Char) (limit : Nat) :
    ∀ (ts acc : List Ticker) (seen : List String), acc.length < limit →
      passTwo query limit ts acc seen =
        acc ++ (dedupMatches (substrMatch query) ts seen).take
          (limit - acc.length) := by
  intro ts
  induction ts with
  | nil => intro acc seen hlt; simp [passTwo, dedupMatches]
  | cons t ts ih =>
      intro acc seen hlt
      by_cases hs : t.name ∈ seen
      · simp only [passTwo, dedupMatches, hs, if_true, not_true, and_false,
          if_false]
        exact ih acc seen hlt
      · by_cases hm : substrMatch query t = true
        · simp only [passTwo, dedupMatches, hs, hm, if_true, if_false,
            not_false_iff, and_true, and_self, List.length_append,
            List.length_singleton]
          by_cases hb : limit ≤ acc.length + 1
          · have h1 : limit - acc.length = 1 := by omega
            simp [hb, h1]
          · have hlt' : (acc ++ [t]).length < limit := by
              simp only [List.length_append, List.length_singleton]
              omega
            have hk : limit - acc.length = (limit - (acc.length + 1)) + 1 := by
              omega
            simp only [hb, if_false]
            rw [ih (acc ++ [t]) (seen ++ [t.name]) hlt']
            simp [hk, List.take_succ_cons, List.append_assoc,
              List.length_append]
        · have hm' : substrMatch query t = false := by
            revert hm; cases substrMatch query t <;> simp
          simp only [passTwo, dedupMatches, hs, hm', Bool.false_eq_true,
            if_false, false_and, if_neg hs]
          exact ih acc seen hlt

theorem dedupMatches_names (p : Ticker → Bool) :
    ∀ (ts : List Ticker) (seen : List String),
      ((dedupMatches p ts seen).map Ticker.name).Nodup
      ∧ ∀ s ∈ (dedupMatches p ts seen).map Ticker.name, s ∉ seen := by
  intro ts
  induction ts with
  | nil => intro seen; simp [dedupMatches]
  | cons t ts ih =>
      intro seen
      by_cases hc : p t = true ∧ t.name ∉ seen
      · simp only [dedupMatches, if_pos hc, List.map_cons, List.nodup_cons]
        obtain ⟨ihn, ihs⟩ := ih (seen ++ [t.name])
        refine ⟨⟨?_, ihn⟩, ?_⟩
        · intro hmem
          exact (ihs _ hmem) (by simp)
        · intro s hsmem
          rw [List.mem_cons] at hsmem
          rcases hsmem with rfl | hs2
          · exact hc.2
          · intro hseen
            exact (ihs _ hs2) (by simp [hseen])
      · simp only [dedupMatches, if_neg hc]
        exact ih seen

/-- C2: the ticker search agrees with the spec's description — the result is
the deduplicated prefix matches followed by the deduplicated
name-or-description substring matches that exclude names already matched,
cut to `limit` (so the second phase only contributes when the first found
fewer than `limit`); the returned count is the number of returned records,
which is at most `limit`, and returned names are pairwise distinct. -/
theorem search_tickers_matches_spec (tickers : List Ticker) (q : String)
    (limit : Nat) (h : 1 ≤ limit) :
    search_tickers tickers q limit =
        (specSearch tickers q limit, (specSearch tickers q limit).length)
    ∧ (specSearch tickers q limit).length ≤ limit
    ∧ ((specSearch tickers q limit).map Ticker.name).Nodup := by
  have h0 : ([] : List Ticker).length < limit := h
  have hp1 := passOne_eq (upperL q.data) limit tickers [] [] h0
  simp only [List.nil_append, List.length_nil, Nat.sub_zero] at hp1
  have hres : (search_tickers tickers q limit).1 = specSearch tickers q limit := by
    simp only [search_tickers, specSearch]
    rw [hp1]
    dsimp only
    rw [List.take_append_eq_append_take]
    by_cases hcase :
        (dedupMatches (prefixMatch (upperL q.data)) tickers []).length < limit
    · rw [List.take_of_length_le (Nat.le_of_lt hcase)]
      rw [if_pos hcase]
      exact passTwo_eq (upperL q.data) limit tickers _ _ hcase
    · have hlim : limit ≤
          (dedupMatches (prefixMatch (upperL q.data)) tickers []).length :=
        Nat.le_of_not_lt hcase
      have hlen : ((dedupMatches (prefixMatch (upperL q.data))
          tickers []).take limit).length = limit := by
        rw [List.length_take]
        exact min_eq_left hlim
      rw [if_neg (by rw [hlen]; exact lt_irrefl limit)]
      rw [Nat.sub_eq_zero_of_le hlim]
      simp
  have hsnd : (search_tickers tickers q limit).2 =
      (search_tickers tickers q limit).1.length := rfl
  refine ⟨?_, ?_, ?_⟩
  · refine Prod.ext hres ?_
    rw [hsnd, hres]
  · simp only [specSearch]
    rw [List.length_take]
    exact min_le_left _ _
  · have hn1 := dedupMatches_names (prefixMatch (upperL q.data)) tickers []
    have hn2 := dedupMatches_names (substrMatch (upperL q.data)) tickers
      ((dedupMatches (prefixMatch (upperL q.data)) tickers []).map Ticker.name)
    simp only [specSearch]
    refine List.Nodup.sublist ((List.take_sublist _ _).map _) ?_
    rw [List.map_append, List.nodup_append]
    exact ⟨hn1.1, hn2.1, fun a ha hb => (hn2.2 a hb) ha⟩

theorem search_tickers_matches_spec_witness :
    (search_tickers demoTickers "ap" 2 =
        (specSearch demoTickers "ap" 2, (specSearch demoTickers "ap" 2).length))
      ∧ (specSearch demoTickers "ap" 2).length ≤ 2
      ∧ ((specSearch demoTickers "ap" 2).map Ticker.name).Nodup :=
  search_tickers_matches_spec demoTickers "ap" 2 (by decide)

end Screener
